import Mathlib

/-!
Verification of the CD-audio emulation layer (src/mmsystem/cdaudio_emu.c).

The C module keeps a single global `CDAUDIO_STATE` record and services MCI
commands against it.  We shallow-embed that state record and every handler as
pure Lean functions with explicit state passing.  External effects are made
explicit parameters:

* the filesystem probe performed by `ScanForTracks` (CreateFileA/GetFileSize
  on the path trackNN.wav) is a function `fs : Nat -> Option Nat`, mapping a
  track number to the size of its backing file when the file exists;
* the PlaySoundA call made by `PlayTrackFile` (which can fail even for an
  existing file) is an oracle `playSound : Nat -> Bool` giving the success of
  the asynchronous start of the given track's file.

Machine integers (DWORD) are modelled as `Nat`; the only operation in the
source where width matters is the byte extraction `MCI_TMSF_TRACK`, embedded
as `% 256`.  Handlers run strictly sequentially here, matching the critical
section that serializes them in the source, and the model starts from the
state that `CDAUDIO_Init` establishes (the dispatcher initializes before any
handler runs).
-/

namespace CdAudio

/-! ## Windows MCI constants used by the module (values from mmsystem.h) -/

def MCI_OPEN : Nat := 0x0803
def MCI_CLOSE : Nat := 0x0804
def MCI_PLAY : Nat := 0x0806
def MCI_SEEK : Nat := 0x0807
def MCI_STOP : Nat := 0x0808
def MCI_PAUSE : Nat := 0x0809
def MCI_INFO : Nat := 0x080A
def MCI_GETDEVCAPS : Nat := 0x080B
def MCI_SET : Nat := 0x080D
def MCI_STATUS : Nat := 0x0814
def MCI_RESUME : Nat := 0x0855

def MCI_FROM : Nat := 0x00000004
def MCI_TO : Nat := 0x00000008
def MCI_TRACK : Nat := 0x00000010
def MCI_STATUS_ITEM : Nat := 0x00000100
def MCI_SET_TIME_FORMAT : Nat := 0x00000400
def MCI_GETDEVCAPS_ITEM : Nat := 0x00000100

def MCI_STATUS_LENGTH : Nat := 1
def MCI_STATUS_POSITION : Nat := 2
def MCI_STATUS_NUMBER_OF_TRACKS : Nat := 3
def MCI_STATUS_MODE : Nat := 4
def MCI_STATUS_MEDIA_PRESENT : Nat := 5
def MCI_STATUS_TIME_FORMAT : Nat := 6
def MCI_STATUS_READY : Nat := 7
def MCI_STATUS_CURRENT_TRACK : Nat := 8
def MCI_CDA_STATUS_TYPE_TRACK : Nat := 0x00004001

def MCI_FORMAT_TMSF : Nat := 10

def MCI_MODE_STOP : Nat := 525
def MCI_MODE_PLAY : Nat := 526
def MCI_MODE_PAUSE : Nat := 529

def MCIERR_DEVICE_OPEN : Nat := 265          -- MCIERR_BASE + 9
def MCIERR_NULL_PARAMETER_BLOCK : Nat := 276 -- MCIERR_BASE + 20

/-- MCI_TMSF_TRACK(t): low byte of a packed track/min/sec/frame DWORD. -/
def MCI_TMSF_TRACK (tmsf : Nat) : Nat := tmsf % 256

/-- MCI_MAKE_TMSF(t,m,s,f): pack track/min/sec/frame bytes into one DWORD. -/
def MCI_MAKE_TMSF (t m s f : Nat) : Nat :=
  t % 256 + (m % 256) * 256 + (s % 256) * 65536 + (f % 256) * 16777216

/-! ## Configuration (cdaudio_emu.c lines 23-24) -/

def CDAUDIO_MAX_TRACKS : Nat := 99
def CDAUDIO_FIRST_AUDIO_TRACK : Nat := 2

/-! ## The emulated CD audio state (struct CDAUDIO_STATE) -/

/-- Per-track info: the `tracks[]` array entries of `CDAUDIO_STATE`. -/
structure TrackInfo where
  bExists : Bool
  dwLengthMS : Nat
deriving Repr, DecidableEq

/-- The global `CDAUDIO_STATE` record.  OS resources (hWaveOut, hPlayThread,
the critical section, szCdPath) are outside the sequential model; the path is
subsumed into the filesystem oracle `fs`. -/
structure CDAUDIO_STATE where
  bOpen : Bool
  wDevID : Nat
  bPlaying : Bool
  bPaused : Bool
  dwCurrentTrack : Nat
  dwStartTrack : Nat
  dwEndTrack : Nat
  dwNumTracks : Nat
  dwTimeFormat : Nat
  tracks : Nat → TrackInfo

/-- State established by `CDAUDIO_Init`: everything zeroed, then the time
format set to `MCI_FORMAT_TMSF`. -/
def CDAUDIO_InitState : CDAUDIO_STATE :=
  { bOpen := false, wDevID := 0, bPlaying := false, bPaused := false
    dwCurrentTrack := 0, dwStartTrack := 0, dwEndTrack := 0
    dwNumTracks := 0, dwTimeFormat := MCI_FORMAT_TMSF
    tracks := fun _ => ⟨false, 0⟩ }

/-- Function `CDAUDIO_IsEmulatedDevice`: the device is ours iff it is open and the
handle matches. -/
def CDAUDIO_IsEmulatedDevice (st : CDAUDIO_STATE) (wDevID : Nat) : Bool :=
  st.bOpen && (st.wDevID == wDevID)

/-! ## Parameter blocks (the LPMCI_..._PARMS structures, fields used only) -/

structure MCI_OPEN_PARMSW where
  wDeviceID : Nat
deriving Repr, DecidableEq

structure MCI_PLAY_PARMS where
  dwFrom : Nat
  dwTo : Nat
deriving Repr, DecidableEq

structure MCI_STATUS_PARMS where
  dwReturn : Nat
  dwItem : Nat
  dwTrack : Nat
deriving Repr, DecidableEq

structure MCI_SET_PARMS where
  dwTimeFormat : Nat
deriving Repr, DecidableEq

structure MCI_GETDEVCAPS_PARMS where
  dwReturn : Nat
  dwItem : Nat
deriving Repr, DecidableEq

structure MCI_SEEK_PARMS where
  dwTo : Nat
deriving Repr, DecidableEq

/-! ## ScanForTracks (lines 132-168) -/

/-- One iteration of the scan loop for track number `t`: if the file exists
its entry is marked existing with the length estimate `size / 176` and
`dwNumTracks` is set to `t`; otherwise the entry is marked absent (its stale
`dwLengthMS` is not cleared by the source). -/
def scanStep (fs : Nat → Option Nat) (st : CDAUDIO_STATE) (t : Nat) :
    CDAUDIO_STATE :=
  match fs t with
  | some dwSize =>
      { st with
        tracks := Function.update st.tracks t ⟨true, dwSize / 176⟩
        dwNumTracks := t }
  | none =>
      { st with
        tracks := Function.update st.tracks t ⟨false, (st.tracks t).dwLengthMS⟩ }

/-- Function `ScanForTracks`: reset `dwNumTracks` to 0, then probe track02.wav through
track99.wav in order. -/
def ScanForTracks (fs : Nat → Option Nat) (st : CDAUDIO_STATE) :
    CDAUDIO_STATE :=
  (List.range' CDAUDIO_FIRST_AUDIO_TRACK
      (CDAUDIO_MAX_TRACKS + 1 - CDAUDIO_FIRST_AUDIO_TRACK)).foldl
    (scanStep fs) { st with dwNumTracks := 0 }

/-! ## Handlers -/

/-- Handler `HandleOpen` (lines 173-204). Returns the new state, the MCI result code,
and the (possibly updated) open parms. -/
def HandleOpen (fs : Nat → Option Nat) (wDevID : Nat) (_dwFlags : Nat)
    (lpOpenParms : Option MCI_OPEN_PARMSW) (st : CDAUDIO_STATE) :
    CDAUDIO_STATE × Nat × Option MCI_OPEN_PARMSW :=
  if st.bOpen then
    (st, MCIERR_DEVICE_OPEN, lpOpenParms)
  else
    let st1 := { st with
      bOpen := true, wDevID := wDevID, bPlaying := false, bPaused := false
      dwCurrentTrack := CDAUDIO_FIRST_AUDIO_TRACK
      dwTimeFormat := MCI_FORMAT_TMSF }
    let st2 := ScanForTracks fs st1
    (st2, 0, lpOpenParms.map (fun p => { p with wDeviceID := wDevID }))

/-- Function `StopPlayback` (lines 248-256): stops the sound and clears the playing
and paused flags, but only when currently playing. -/
def StopPlayback (st : CDAUDIO_STATE) : CDAUDIO_STATE :=
  if st.bPlaying then { st with bPlaying := false, bPaused := false } else st

/-- Handler `HandleClose` (lines 209-222). -/
def HandleClose (st : CDAUDIO_STATE) : CDAUDIO_STATE × Nat :=
  let st1 := StopPlayback st
  ({ st1 with bOpen := false, wDevID := 0 }, 0)

/-- Function `PlayTrackFile` (lines 227-243): fails for a track outside 2..99 or with
no backing file; otherwise the PlaySoundA oracle decides success.  The C
function reads the global state only through the `tracks[]` catalog (and the
path, which the oracle subsumes), so it takes the catalog directly. -/
def PlayTrackFile (playSound : Nat → Bool) (tracks : Nat → TrackInfo)
    (dwTrack : Nat) : Bool :=
  if dwTrack < CDAUDIO_FIRST_AUDIO_TRACK ∨ CDAUDIO_MAX_TRACKS < dwTrack then
    false
  else if ¬ (tracks dwTrack).bExists then
    false
  else
    playSound dwTrack

/-- Handler `HandlePlay` (lines 261-307). -/
def HandlePlay (playSound : Nat → Bool) (dwFlags : Nat)
    (lpPlayParms : Option MCI_PLAY_PARMS) (st : CDAUDIO_STATE) :
    CDAUDIO_STATE × Nat :=
  let dwFrom0 := st.dwCurrentTrack
  let dwTo0 := st.dwNumTracks
  let dwFrom :=
    match lpPlayParms with
    | some p =>
        if dwFlags &&& MCI_FROM ≠ 0 then
          if st.dwTimeFormat = MCI_FORMAT_TMSF then MCI_TMSF_TRACK p.dwFrom
          else p.dwFrom
        else dwFrom0
    | none => dwFrom0
  let dwTo :=
    match lpPlayParms with
    | some p =>
        if dwFlags &&& MCI_TO ≠ 0 then
          if st.dwTimeFormat = MCI_FORMAT_TMSF then MCI_TMSF_TRACK p.dwTo
          else p.dwTo
        else dwTo0
    | none => dwTo0
  let st1 := StopPlayback st
  let st2 := { st1 with
    dwCurrentTrack := dwFrom, dwStartTrack := dwFrom, dwEndTrack := dwTo }
  let st3 :=
    if PlayTrackFile playSound st2.tracks dwFrom then
      { st2 with bPlaying := true, bPaused := false }
    else st2
  (st3, 0)

/-- Handler `HandleStop` (lines 312-318). -/
def HandleStop (st : CDAUDIO_STATE) : CDAUDIO_STATE × Nat :=
  (StopPlayback st, 0)

/-- Handler `HandlePause` (lines 323-336): effective only when playing and not
already paused. -/
def HandlePause (st : CDAUDIO_STATE) : CDAUDIO_STATE × Nat :=
  if st.bPlaying ∧ ¬ st.bPaused then ({ st with bPaused := true }, 0)
  else (st, 0)

/-- Handler `HandleResume` (lines 341-354): effective only when paused; restarts the
current track (result of `PlayTrackFile` ignored by the source). -/
def HandleResume (playSound : Nat → Bool) (st : CDAUDIO_STATE) :
    CDAUDIO_STATE × Nat :=
  if st.bPaused then
    let _ := PlayTrackFile playSound st.tracks st.dwCurrentTrack
    ({ st with bPaused := false }, 0)
  else (st, 0)

/-- The total-length loop of `HandleStatus` (lines 388-393): sum of
`dwLengthMS` over existing entries for `i` from 2 through `dwNumTracks`. -/
def statusTotalLength (st : CDAUDIO_STATE) : Nat :=
  (List.range' CDAUDIO_FIRST_AUDIO_TRACK
      (st.dwNumTracks + 1 - CDAUDIO_FIRST_AUDIO_TRACK)).foldl
    (fun dwTotal i =>
      if (st.tracks i).bExists then dwTotal + (st.tracks i).dwLengthMS
      else dwTotal) 0

/-- The `switch (lpStatusParms->dwItem)` of `HandleStatus` (lines 367-442),
computing the value stored into `dwReturn`. -/
def statusItemValue (dwFlags : Nat) (p : MCI_STATUS_PARMS)
    (st : CDAUDIO_STATE) : Nat :=
  if p.dwItem = MCI_STATUS_LENGTH then
    if dwFlags &&& MCI_TRACK ≠ 0 then
      if CDAUDIO_FIRST_AUDIO_TRACK ≤ p.dwTrack ∧
          p.dwTrack ≤ CDAUDIO_MAX_TRACKS ∧ (st.tracks p.dwTrack).bExists then
        (st.tracks p.dwTrack).dwLengthMS
      else 0
    else statusTotalLength st
  else if p.dwItem = MCI_STATUS_NUMBER_OF_TRACKS then st.dwNumTracks
  else if p.dwItem = MCI_STATUS_MODE then
    if st.bPlaying then
      if st.bPaused then MCI_MODE_PAUSE else MCI_MODE_PLAY
    else MCI_MODE_STOP
  else if p.dwItem = MCI_STATUS_MEDIA_PRESENT then
    if 0 < st.dwNumTracks then 1 else 0
  else if p.dwItem = MCI_STATUS_CURRENT_TRACK then st.dwCurrentTrack
  else if p.dwItem = MCI_STATUS_POSITION then
    if dwFlags &&& MCI_TRACK ≠ 0 then MCI_MAKE_TMSF p.dwTrack 0 0 0
    else MCI_MAKE_TMSF st.dwCurrentTrack 0 0 0
  else if p.dwItem = MCI_STATUS_READY then 1
  else if p.dwItem = MCI_STATUS_TIME_FORMAT then st.dwTimeFormat
  else if p.dwItem = MCI_CDA_STATUS_TYPE_TRACK then 1088 -- MCI_CDA_TRACK_AUDIO
  else 0 -- unhandled status item (FIXME branch)

/-- Handler `HandleStatus` (lines 359-448): never mutates the device state; returns
the result code and the parameter block with `dwReturn` filled in. -/
def HandleStatus (dwFlags : Nat) (lpStatusParms : Option MCI_STATUS_PARMS)
    (st : CDAUDIO_STATE) : Nat × Option MCI_STATUS_PARMS :=
  match lpStatusParms with
  | none => (MCIERR_NULL_PARAMETER_BLOCK, none)
  | some p =>
      if dwFlags &&& MCI_STATUS_ITEM ≠ 0 then
        (0, some { p with dwReturn := statusItemValue dwFlags p st })
      else (0, some p)

/-- Handler `HandleSet` (lines 453-468). -/
def HandleSet (dwFlags : Nat) (lpSetParms : Option MCI_SET_PARMS)
    (st : CDAUDIO_STATE) : CDAUDIO_STATE × Nat :=
  match lpSetParms with
  | none => (st, MCIERR_NULL_PARAMETER_BLOCK)
  | some p =>
      if dwFlags &&& MCI_SET_TIME_FORMAT ≠ 0 then
        ({ st with dwTimeFormat := p.dwTimeFormat }, 0)
      else (st, 0)

/-- Handler `HandleGetDevCaps` (lines 473-515): a static capability table, no state
dependency. -/
def HandleGetDevCaps (dwFlags : Nat)
    (lpCapsParms : Option MCI_GETDEVCAPS_PARMS) :
    Nat × Option MCI_GETDEVCAPS_PARMS :=
  match lpCapsParms with
  | none => (MCIERR_NULL_PARAMETER_BLOCK, none)
  | some p =>
      if dwFlags &&& MCI_GETDEVCAPS_ITEM ≠ 0 then
        let v :=
          if p.dwItem = 1 then 0        -- MCI_GETDEVCAPS_CAN_RECORD: FALSE
          else if p.dwItem = 2 then 1   -- MCI_GETDEVCAPS_HAS_AUDIO: TRUE
          else if p.dwItem = 3 then 0   -- MCI_GETDEVCAPS_HAS_VIDEO: FALSE
          else if p.dwItem = 4 then 516 -- MCI_GETDEVCAPS_DEVICE_TYPE: cd
          else if p.dwItem = 5 then 0   -- MCI_GETDEVCAPS_USES_FILES: FALSE
          else if p.dwItem = 6 then 0   -- COMPOUND_DEVICE: FALSE
          else if p.dwItem = 7 then 0   -- CAN_EJECT: FALSE
          else if p.dwItem = 8 then 1   -- CAN_PLAY: TRUE
          else if p.dwItem = 9 then 0   -- CAN_SAVE: FALSE
          else 0                        -- unhandled item (FIXME branch)
        (0, some { p with dwReturn := v })
      else (0, some p)

/-- Handler `HandleSeek` (lines 520-539): when `MCI_TO` is set, decode the target
track (low byte in TMSF format, raw value otherwise) and store it into
`dwCurrentTrack` unconditionally.  The source dereferences `lpSeekParms`
without a null check, so the parms are a plain argument here. -/
def HandleSeek (dwFlags : Nat) (lpSeekParms : MCI_SEEK_PARMS)
    (st : CDAUDIO_STATE) : CDAUDIO_STATE × Nat :=
  if dwFlags &&& MCI_TO ≠ 0 then
    let dwTrack :=
      if st.dwTimeFormat = MCI_FORMAT_TMSF then MCI_TMSF_TRACK lpSeekParms.dwTo
      else lpSeekParms.dwTo
    ({ st with dwCurrentTrack := dwTrack }, 0)
  else (st, 0)

/-! ## The command interpreter (CDAUDIO_HandleCommand, lines 544-606) -/

/-- An MCI command together with its (correctly typed) parameter block, as
the external dispatcher passes it: `wMsg` plus the `dwParam` cast the handler
performs.  `other` carries a command code outside the emulated set. -/
inductive MCI_CMD where
  | mciOpen (dwFlags : Nat) (lp : Option MCI_OPEN_PARMSW)
  | mciClose
  | mciPlay (dwFlags : Nat) (lp : Option MCI_PLAY_PARMS)
  | mciStop
  | mciPause
  | mciResume
  | mciStatus (dwFlags : Nat) (lp : Option MCI_STATUS_PARMS)
  | mciSet (dwFlags : Nat) (lp : Option MCI_SET_PARMS)
  | mciGetDevCaps (dwFlags : Nat) (lp : Option MCI_GETDEVCAPS_PARMS)
  | mciSeek (dwFlags : Nat) (lp : MCI_SEEK_PARMS)
  | mciInfo
  | other (wMsg : Nat)

/-- The `wMsg` command code of a command. -/
def msgOf : MCI_CMD → Nat
  | .mciOpen _ _ => MCI_OPEN
  | .mciClose => MCI_CLOSE
  | .mciPlay _ _ => MCI_PLAY
  | .mciStop => MCI_STOP
  | .mciPause => MCI_PAUSE
  | .mciResume => MCI_RESUME
  | .mciStatus _ _ => MCI_STATUS
  | .mciSet _ _ => MCI_SET
  | .mciGetDevCaps _ _ => MCI_GETDEVCAPS
  | .mciSeek _ _ => MCI_SEEK
  | .mciInfo => MCI_INFO
  | .other wMsg => wMsg

/-- Dispatcher `CDAUDIO_HandleCommand`: returns the new state, the `*pResult` value when
the command was handled (`none` when not), and the handled flag (the C BOOL
return value).  A command other than Open targeting a handle that is not the
open device's is declined up front; MCI_INFO and unknown codes are declined
in the switch. -/
def CDAUDIO_HandleCommand (playSound : Nat → Bool) (fs : Nat → Option Nat)
    (wDevID : Nat) (cmd : MCI_CMD) (st : CDAUDIO_STATE) :
    CDAUDIO_STATE × Option Nat × Bool :=
  if msgOf cmd ≠ MCI_OPEN ∧ ¬ CDAUDIO_IsEmulatedDevice st wDevID then
    (st, none, false)
  else
    match cmd with
    | .mciOpen dwFlags lp =>
        let r := HandleOpen fs wDevID dwFlags lp st
        (r.1, some r.2.1, true)
    | .mciClose =>
        let r := HandleClose st
        (r.1, some r.2, true)
    | .mciPlay dwFlags lp =>
        let r := HandlePlay playSound dwFlags lp st
        (r.1, some r.2, true)
    | .mciStop =>
        let r := HandleStop st
        (r.1, some r.2, true)
    | .mciPause =>
        let r := HandlePause st
        (r.1, some r.2, true)
    | .mciResume =>
        let r := HandleResume playSound st
        (r.1, some r.2, true)
    | .mciStatus dwFlags lp =>
        let r := HandleStatus dwFlags lp st
        (st, some r.1, true)
    | .mciSet dwFlags lp =>
        let r := HandleSet dwFlags lp st
        (r.1, some r.2, true)
    | .mciGetDevCaps dwFlags lp =>
        let r := HandleGetDevCaps dwFlags lp
        (st, some r.1, true)
    | .mciSeek dwFlags lp =>
        let r := HandleSeek dwFlags lp st
        (r.1, some r.2, true)
    | .mciInfo => (st, none, false)
    | .other _ => (st, none, false)

/-- States reachable from the initialized module by any sequence of MCI
commands, under arbitrary filesystem and playback-oracle behaviour. -/
inductive Reachable : CDAUDIO_STATE → Prop where
  | init : Reachable CDAUDIO_InitState
  | step (st : CDAUDIO_STATE) (playSound : Nat → Bool)
      (fs : Nat → Option Nat) (wDevID : Nat) (cmd : MCI_CMD) :
      Reachable st →
      Reachable (CDAUDIO_HandleCommand playSound fs wDevID cmd st).1

/-! ## Specification-side definitions

These follow the wording of the specification (spec.md), to be compared with
the code-derived definitions above. -/

/-- Spec wording for C1: the count of track numbers in 2..99 whose catalog
entry is marked existing. -/
def existingTrackCount (st : CDAUDIO_STATE) : Nat :=
  ((List.range' 2 98).filter (fun t => (st.tracks t).bExists)).length

/-- Spec wording for C6: the sum of per-track estimated lengths over all
tracks marked existing, from track 2 through `numTracks`. -/
def specTotalLength (st : CDAUDIO_STATE) : Nat :=
  ∑ t ∈ (Finset.Icc 2 st.dwNumTracks).filter
      (fun t => (st.tracks t).bExists = true),
    (st.tracks t).dwLengthMS

/-! ## Concrete fixtures used by witnesses and counterexamples -/

/-- A CD directory holding track02.wav and track03.wav, 176400 bytes each. -/
def fsAB : Nat → Option Nat :=
  fun t => if t = 2 ∨ t = 3 then some 176400 else none

/-- A CD directory holding only track02.wav (17600 bytes). -/
def fsOne : Nat → Option Nat := fun t => if t = 2 then some 17600 else none

/-- A PlaySoundA oracle that always succeeds. -/
def psAll : Nat → Bool := fun _ => true

/-- The device state right after a successful Open against `fsAB`. -/
def stOpenAB : CDAUDIO_STATE := (HandleOpen fsAB 1 0 none CDAUDIO_InitState).1

/-- The device state right after a successful Open against `fsOne`. -/
def stOpenOne : CDAUDIO_STATE := (HandleOpen fsOne 1 0 none CDAUDIO_InitState).1

/-- State `stOpenOne` after a parameterless Play command through the dispatcher. -/
def stPlayOne : CDAUDIO_STATE :=
  (CDAUDIO_HandleCommand psAll fsOne 1 (.mciPlay 0 none) stOpenOne).1

/-- State `stPlayOne` after a Pause command through the dispatcher. -/
def stPauseOne : CDAUDIO_STATE :=
  (CDAUDIO_HandleCommand psAll fsOne 1 .mciPause stPlayOne).1

/-! ## Lemmas about the catalog scan -/

/-- What one pass of the scan loop does to the scanned track's own entry. -/
def trackScan : Option Nat → TrackInfo → TrackInfo
  | some dwSize, _ => ⟨true, dwSize / 176⟩
  | none, old => ⟨false, old.dwLengthMS⟩

lemma scanStep_frame (fs : Nat → Option Nat) (st : CDAUDIO_STATE) (t : Nat) :
    (scanStep fs st t).bOpen = st.bOpen ∧
    (scanStep fs st t).wDevID = st.wDevID ∧
    (scanStep fs st t).bPlaying = st.bPlaying ∧
    (scanStep fs st t).bPaused = st.bPaused ∧
    (scanStep fs st t).dwCurrentTrack = st.dwCurrentTrack ∧
    (scanStep fs st t).dwStartTrack = st.dwStartTrack ∧
    (scanStep fs st t).dwEndTrack = st.dwEndTrack ∧
    (scanStep fs st t).dwTimeFormat = st.dwTimeFormat := by
  cases h : fs t <;> simp [scanStep, h]

lemma scanFold_frame (fs : Nat → Option Nat) (l : List Nat) :
    ∀ st : CDAUDIO_STATE,
    (l.foldl (scanStep fs) st).bOpen = st.bOpen ∧
    (l.foldl (scanStep fs) st).wDevID = st.wDevID ∧
    (l.foldl (scanStep fs) st).bPlaying = st.bPlaying ∧
    (l.foldl (scanStep fs) st).bPaused = st.bPaused ∧
    (l.foldl (scanStep fs) st).dwCurrentTrack = st.dwCurrentTrack ∧
    (l.foldl (scanStep fs) st).dwStartTrack = st.dwStartTrack ∧
    (l.foldl (scanStep fs) st).dwEndTrack = st.dwEndTrack ∧
    (l.foldl (scanStep fs) st).dwTimeFormat = st.dwTimeFormat := by
  induction l with
  | nil => intro st; simp
  | cons a l ih =>
      intro st
      have h1 := scanStep_frame fs st a
      have h2 := ih (scanStep fs st a)
      simp only [List.foldl_cons]
      exact ⟨h2.1.trans h1.1, h2.2.1.trans h1.2.1, h2.2.2.1.trans h1.2.2.1,
        h2.2.2.2.1.trans h1.2.2.2.1, h2.2.2.2.2.1.trans h1.2.2.2.2.1,
        h2.2.2.2.2.2.1.trans h1.2.2.2.2.2.1,
        h2.2.2.2.2.2.2.1.trans h1.2.2.2.2.2.2.1,
        h2.2.2.2.2.2.2.2.trans h1.2.2.2.2.2.2.2⟩

lemma scanStep_tracks_ne (fs : Nat → Option Nat) (st : CDAUDIO_STATE)
    {u t : Nat} (h : t ≠ u) : (scanStep fs st u).tracks t = st.tracks t := by
  cases hu : fs u <;> simp [scanStep, hu, Function.update_noteq h]

lemma scanStep_tracks_self (fs : Nat → Option Nat) (st : CDAUDIO_STATE)
    (t : Nat) : (scanStep fs st t).tracks t = trackScan (fs t) (st.tracks t) := by
  cases h : fs t <;> simp [scanStep, trackScan, h]

lemma scanFold_tracks_not_mem (fs : Nat → Option Nat) {t : Nat} :
    ∀ (l : List Nat) (st : CDAUDIO_STATE), t ∉ l →
    (l.foldl (scanStep fs) st).tracks t = st.tracks t := by
  intro l
  induction l with
  | nil => intro st _; simp
  | cons a l ih =>
      intro st hmem
      simp only [List.mem_cons, not_or] at hmem
      simp only [List.foldl_cons]
      rw [ih _ hmem.2, scanStep_tracks_ne fs st hmem.1]

lemma scanFold_tracks_mem (fs : Nat → Option Nat) :
    ∀ (n a : Nat) (st : CDAUDIO_STATE) (t : Nat), a ≤ t → t < a + n →
    ((List.range' a n).foldl (scanStep fs) st).tracks t =
      trackScan (fs t) (st.tracks t) := by
  intro n
  induction n with
  | zero => intro a st t h1 h2; omega
  | succ n ih =>
      intro a st t h1 h2
      rw [List.range'_succ, List.foldl_cons]
      by_cases he : t = a
      · subst he
        rw [scanFold_tracks_not_mem fs _ _ (by
          intro hmem
          rw [List.mem_range'_1] at hmem
          omega)]
        exact scanStep_tracks_self fs st t
      · rw [ih (a + 1) (scanStep fs st a) t (by omega) (by omega),
          scanStep_tracks_ne fs st he]

lemma scanFold_num (fs : Nat → Option Nat) :
    ∀ (l : List Nat) (st : CDAUDIO_STATE),
    (l.foldl (scanStep fs) st).dwNumTracks =
      l.foldl (fun acc t => if (fs t).isSome then t else acc) st.dwNumTracks := by
  intro l
  induction l with
  | nil => intro st; simp
  | cons a l ih =>
      intro st
      simp only [List.foldl_cons]
      rw [ih]
      congr 1
      cases h : fs a <;> simp [scanStep, h]

lemma lastHit_none (fs : Nat → Option Nat) :
    ∀ (n a acc : Nat), (∀ t, a ≤ t → t < a + n → (fs t).isSome = false) →
    (List.range' a n).foldl (fun acc t => if (fs t).isSome then t else acc) acc
      = acc := by
  intro n
  induction n with
  | zero => intro a acc _; simp
  | succ n ih =>
      intro a acc h
      rw [List.range'_concat, List.foldl_append]
      simp only [List.foldl_cons, List.foldl_nil]
      rw [h (a + 1 * n) (by omega) (by omega)]
      simp only [Bool.false_eq_true, if_false]
      exact ih a acc (fun t h1 h2 => h t h1 (by omega))

lemma lastHit_max (fs : Nat → Option Nat) :
    ∀ (n a acc : Nat), (∃ t, a ≤ t ∧ t < a + n ∧ (fs t).isSome = true) →
    (fs ((List.range' a n).foldl
        (fun acc t => if (fs t).isSome then t else acc) acc)).isSome = true ∧
    a ≤ (List.range' a n).foldl
        (fun acc t => if (fs t).isSome then t else acc) acc ∧
    (List.range' a n).foldl
        (fun acc t => if (fs t).isSome then t else acc) acc < a + n ∧
    (∀ t, a ≤ t → t < a + n → (fs t).isSome = true →
      t ≤ (List.range' a n).foldl
        (fun acc t => if (fs t).isSome then t else acc) acc) := by
  intro n
  induction n with
  | zero => intro a acc ⟨t, h1, h2, _⟩; omega
  | succ n ih =>
      intro a acc hex
      rw [List.range'_concat, List.foldl_append]
      simp only [List.foldl_cons, List.foldl_nil]
      have hn : a + 1 * n = a + n := by omega
      rw [hn]
      cases hlast : (fs (a + n)).isSome with
      | true =>
          simp only [if_true]
          exact ⟨hlast, by omega, by omega, fun t _ h2 _ => by omega⟩
      | false =>
          simp only [Bool.false_eq_true, if_false]
          obtain ⟨t, h1, h2, h3⟩ := hex
          have ht : t < a + n := by
            rcases Nat.lt_succ_iff_lt_or_eq.mp (by omega : t < (a + n) + 1) with
                h | h
            · exact h
            · rw [h] at h3; rw [h3] at hlast; cases hlast
          obtain ⟨c1, c2, c3, c4⟩ := ih a acc ⟨t, h1, ht, h3⟩
          refine ⟨c1, c2, by omega, fun u hu1 hu2 hu3 => ?_⟩
          have hu : u < a + n := by
            rcases Nat.lt_succ_iff_lt_or_eq.mp (by omega : u < (a + n) + 1) with
                h | h
            · exact h
            · rw [h] at hu3; rw [hu3] at hlast; cases hlast
          exact c4 u hu1 hu hu3

/-- Lemma: `ScanForTracks` unfolded to its 98-element fold. -/
lemma ScanForTracks_eq (fs : Nat → Option Nat) (st : CDAUDIO_STATE) :
    ScanForTracks fs st =
      (List.range' 2 98).foldl (scanStep fs) { st with dwNumTracks := 0 } := rfl

lemma ScanForTracks_frame (fs : Nat → Option Nat) (st : CDAUDIO_STATE) :
    (ScanForTracks fs st).bOpen = st.bOpen ∧
    (ScanForTracks fs st).wDevID = st.wDevID ∧
    (ScanForTracks fs st).bPlaying = st.bPlaying ∧
    (ScanForTracks fs st).bPaused = st.bPaused ∧
    (ScanForTracks fs st).dwCurrentTrack = st.dwCurrentTrack ∧
    (ScanForTracks fs st).dwStartTrack = st.dwStartTrack ∧
    (ScanForTracks fs st).dwEndTrack = st.dwEndTrack ∧
    (ScanForTracks fs st).dwTimeFormat = st.dwTimeFormat := by
  rw [ScanForTracks_eq]
  exact scanFold_frame fs (List.range' 2 98) { st with dwNumTracks := 0 }

/-- In-range catalog entries after a scan. -/
lemma ScanForTracks_tracks (fs : Nat → Option Nat) (st : CDAUDIO_STATE)
    {t : Nat} (h1 : 2 ≤ t) (h2 : t ≤ 99) :
    (ScanForTracks fs st).tracks t = trackScan (fs t) (st.tracks t) := by
  rw [ScanForTracks_eq]
  exact scanFold_tracks_mem fs 98 2 { st with dwNumTracks := 0 } t h1 (by omega)

/-- After a scan, a track in 2..99 is marked existing iff the filesystem has
a backing file for it. -/
lemma ScanForTracks_bExists (fs : Nat → Option Nat) (st : CDAUDIO_STATE)
    {t : Nat} (h1 : 2 ≤ t) (h2 : t ≤ 99) :
    ((ScanForTracks fs st).tracks t).bExists = (fs t).isSome := by
  rw [ScanForTracks_tracks fs st h1 h2]
  cases h : fs t <;> simp [trackScan, h]

lemma ScanForTracks_num (fs : Nat → Option Nat) (st : CDAUDIO_STATE) :
    (ScanForTracks fs st).dwNumTracks =
      (List.range' 2 98).foldl
        (fun acc t => if (fs t).isSome then t else acc) 0 := by
  rw [ScanForTracks_eq, scanFold_num]

/-- After a scan, `dwNumTracks` is 0 when no backing file exists, and
otherwise it is the highest track number in 2..99 with a backing file. -/
lemma ScanForTracks_num_spec (fs : Nat → Option Nat) (st : CDAUDIO_STATE) :
    ((∀ t, 2 ≤ t → t ≤ 99 → (fs t).isSome = false) →
      (ScanForTracks fs st).dwNumTracks = 0) ∧
    ((∃ t, 2 ≤ t ∧ t ≤ 99 ∧ (fs t).isSome = true) →
      ((fs ((ScanForTracks fs st).dwNumTracks)).isSome = true ∧
       2 ≤ (ScanForTracks fs st).dwNumTracks ∧
       (ScanForTracks fs st).dwNumTracks ≤ 99 ∧
       ∀ t, 2 ≤ t → t ≤ 99 → (fs t).isSome = true →
         t ≤ (ScanForTracks fs st).dwNumTracks)) := by
  rw [ScanForTracks_num]
  constructor
  · intro h
    exact lastHit_none fs 98 2 0 (fun t h1 h2 => h t h1 (by omega))
  · intro ⟨t, h1, h2, h3⟩
    obtain ⟨c1, c2, c3, c4⟩ := lastHit_max fs 98 2 0 ⟨t, h1, by omega, h3⟩
    exact ⟨c1, c2, by omega, fun u hu1 hu2 hu3 => c4 u hu1 (by omega) hu3⟩

/-! ## Lemmas about the total-length loop -/

lemma range'_map_sum (f : Nat → Nat) :
    ∀ m : Nat, ((List.range' 2 m).map f).sum = ∑ t ∈ Finset.Icc 2 (m + 1), f t := by
  intro m
  induction m with
  | zero => rw [Finset.Icc_eq_empty (by omega)]; simp
  | succ m ih =>
      rw [List.range'_concat, List.map_append, List.sum_append]
      have h2m : 2 + 1 * m = m + 2 := by omega
      rw [h2m, ih, Finset.sum_Icc_succ_top (by omega : 2 ≤ (m + 1) + 1) f]
      simp

/-- The total-length loop of `HandleStatus` computes exactly the sum the
specification describes: over tracks 2..`numTracks` marked existing. -/
lemma statusTotalLength_eq_spec (st : CDAUDIO_STATE) :
    statusTotalLength st = specTotalLength st := by
  have hfun :
      (fun (dwTotal i : Nat) =>
        if (st.tracks i).bExists then dwTotal + (st.tracks i).dwLengthMS
        else dwTotal) =
      (fun (acc i : Nat) =>
        acc + (if (st.tracks i).bExists then (st.tracks i).dwLengthMS else 0)) := by
    funext acc i
    by_cases h : (st.tracks i).bExists <;> simp [h]
  have hmap : ∀ l : List Nat,
      l.foldl (fun (dwTotal i : Nat) =>
        if (st.tracks i).bExists then dwTotal + (st.tracks i).dwLengthMS
        else dwTotal) 0 =
      (l.map (fun i =>
        if (st.tracks i).bExists then (st.tracks i).dwLengthMS else 0)).sum := by
    intro l
    rw [hfun, List.sum_eq_foldl, List.foldl_map]
  rw [statusTotalLength, specTotalLength, Finset.sum_filter, hmap]
  rcases hN : st.dwNumTracks with _ | k
  · show ((List.range' 2 (0 + 1 - 2)).map _).sum = _
    rw [Finset.Icc_eq_empty (by omega)]
    simp
  · show ((List.range' 2 (k + 1 + 1 - 2)).map _).sum = _
    have hk : k + 1 + 1 - 2 = k := by omega
    rw [hk, range'_map_sum]

/-- Lemma: `StopPlayback` never touches the catalog. -/
lemma StopPlayback_tracks (st : CDAUDIO_STATE) :
    (StopPlayback st).tracks = st.tracks := by
  unfold StopPlayback; split <;> rfl

/-- Field-by-field description of `StopPlayback`. -/
lemma StopPlayback_spec (st : CDAUDIO_STATE) :
    (StopPlayback st).bPlaying = false ∧
    (StopPlayback st).bPaused = (if st.bPlaying then false else st.bPaused) ∧
    (StopPlayback st).bOpen = st.bOpen ∧
    (StopPlayback st).wDevID = st.wDevID ∧
    (StopPlayback st).dwCurrentTrack = st.dwCurrentTrack ∧
    (StopPlayback st).dwStartTrack = st.dwStartTrack ∧
    (StopPlayback st).dwEndTrack = st.dwEndTrack ∧
    (StopPlayback st).dwNumTracks = st.dwNumTracks ∧
    (StopPlayback st).dwTimeFormat = st.dwTimeFormat ∧
    (StopPlayback st).tracks = st.tracks := by
  unfold StopPlayback
  split <;> simp_all

/-- After `StopPlayback` the playing flag is always clear. -/
lemma StopPlayback_bPlaying (st : CDAUDIO_STATE) :
    (StopPlayback st).bPlaying = false := (StopPlayback_spec st).1

/-- Characterization of `HandlePlay`: there are decoded track values F and T
(defaulting to `dwCurrentTrack` and `dwNumTracks`) such that the handler
returns 0, sets the range and current track to them, and reports playing
exactly when `PlayTrackFile` succeeded for F against the caller's catalog. -/
lemma HandlePlay_spec (playSound : Nat → Bool) (dwFlags : Nat)
    (lp : Option MCI_PLAY_PARMS) (st : CDAUDIO_STATE) :
    ∃ F T,
      (lp = none → F = st.dwCurrentTrack ∧ T = st.dwNumTracks) ∧
      (dwFlags &&& MCI_FROM = 0 → F = st.dwCurrentTrack) ∧
      (dwFlags &&& MCI_TO = 0 → T = st.dwNumTracks) ∧
      (HandlePlay playSound dwFlags lp st).2 = 0 ∧
      (HandlePlay playSound dwFlags lp st).1.dwStartTrack = F ∧
      (HandlePlay playSound dwFlags lp st).1.dwEndTrack = T ∧
      (HandlePlay playSound dwFlags lp st).1.dwCurrentTrack = F ∧
      (HandlePlay playSound dwFlags lp st).1.bPlaying =
        PlayTrackFile playSound st.tracks F ∧
      (HandlePlay playSound dwFlags lp st).1.bPaused =
        (if PlayTrackFile playSound st.tracks F then false
         else (StopPlayback st).bPaused) := by
  cases lp with
  | none =>
      refine ⟨st.dwCurrentTrack, st.dwNumTracks, fun _ => ⟨rfl, rfl⟩,
        fun _ => rfl, fun _ => rfl, rfl, ?_, ?_, ?_, ?_, ?_⟩
      · simp [HandlePlay, StopPlayback_tracks,
          apply_ite CDAUDIO_STATE.dwStartTrack]
      · simp [HandlePlay, StopPlayback_tracks,
          apply_ite CDAUDIO_STATE.dwEndTrack]
      · simp [HandlePlay, StopPlayback_tracks,
          apply_ite CDAUDIO_STATE.dwCurrentTrack]
      · simp only [HandlePlay, StopPlayback_tracks,
          apply_ite CDAUDIO_STATE.bPlaying, StopPlayback_bPlaying]
        split <;> simp_all
      · simp only [HandlePlay, StopPlayback_tracks,
          apply_ite CDAUDIO_STATE.bPaused]
  | some p =>
      refine ⟨if dwFlags &&& MCI_FROM ≠ 0 then
          (if st.dwTimeFormat = MCI_FORMAT_TMSF then MCI_TMSF_TRACK p.dwFrom
           else p.dwFrom)
        else st.dwCurrentTrack,
        if dwFlags &&& MCI_TO ≠ 0 then
          (if st.dwTimeFormat = MCI_FORMAT_TMSF then MCI_TMSF_TRACK p.dwTo
           else p.dwTo)
        else st.dwNumTracks,
        ?_, ?_, ?_, rfl, ?_, ?_, ?_, ?_, ?_⟩
      · intro h; exact nomatch h
      · intro h; simp [h]
      · intro h; simp [h]
      · simp [HandlePlay, StopPlayback_tracks,
          apply_ite CDAUDIO_STATE.dwStartTrack]
      · simp [HandlePlay, StopPlayback_tracks,
          apply_ite CDAUDIO_STATE.dwEndTrack]
      · simp [HandlePlay, StopPlayback_tracks,
          apply_ite CDAUDIO_STATE.dwCurrentTrack]
      · simp only [HandlePlay, StopPlayback_tracks,
          apply_ite CDAUDIO_STATE.bPlaying, StopPlayback_bPlaying]
        split <;> simp_all
      · simp only [HandlePlay, StopPlayback_tracks,
          apply_ite CDAUDIO_STATE.bPaused]

/-! ## Claim theorems -/

/-- C5: for every open device, a Seek command carrying MCI_TO sets
`dwCurrentTrack` to the decoded target track (the low TMSF byte under the
TMSF time format, the raw value otherwise) and changes no other device
field — playback state, catalog, time format and play range are untouched
and no playback is started — returning success. -/
theorem C5_seek_frame (dwFlags : Nat) (p : MCI_SEEK_PARMS)
    (st : CDAUDIO_STATE) (_hopen : st.bOpen = true)
    (hto : dwFlags &&& MCI_TO ≠ 0) :
    HandleSeek dwFlags p st =
      ({ st with dwCurrentTrack :=
          if st.dwTimeFormat = MCI_FORMAT_TMSF then MCI_TMSF_TRACK p.dwTo
          else p.dwTo }, 0) := by
  simp [HandleSeek, hto]

/-- Witness for C5 at a concrete open device. -/
theorem C5_seek_frame_witness :
    (HandleSeek MCI_TO ⟨5⟩ stOpenAB).1.dwCurrentTrack = 5 ∧
    (HandleSeek MCI_TO ⟨5⟩ stOpenAB).1.bPlaying = stOpenAB.bPlaying ∧
    (HandleSeek MCI_TO ⟨5⟩ stOpenAB).2 = 0 := by
  have h := C5_seek_frame MCI_TO ⟨5⟩ stOpenAB (by decide) (by decide)
  exact ⟨by rw [h]; decide, by rw [h], by rw [h]⟩

/-- C10: a Seek carrying MCI_TO stores the decoded track value into
`dwCurrentTrack` unconditionally — no validation against 2..99, against
`dwNumTracks`, or against track existence — and returns success. -/
theorem C10_seek_unvalidated (dwFlags : Nat) (p : MCI_SEEK_PARMS)
    (st : CDAUDIO_STATE) (hto : dwFlags &&& MCI_TO ≠ 0) :
    (HandleSeek dwFlags p st).1.dwCurrentTrack =
      (if st.dwTimeFormat = MCI_FORMAT_TMSF then MCI_TMSF_TRACK p.dwTo
       else p.dwTo) ∧
    (HandleSeek dwFlags p st).2 = 0 := by
  simp [HandleSeek, hto]

/-- Witness for C10: seeking to the nonexistent track 500 (plain track
format) is accepted and stored. -/
theorem C10_seek_unvalidated_witness :
    (HandleSeek MCI_TO ⟨500⟩
      { stOpenAB with dwTimeFormat := 0 }).1.dwCurrentTrack = 500 ∧
    (HandleSeek MCI_TO ⟨500⟩ { stOpenAB with dwTimeFormat := 0 }).2 = 0 := by
  have h := C10_seek_unvalidated MCI_TO ⟨500⟩
    { stOpenAB with dwTimeFormat := 0 } (by decide)
  exact ⟨by rw [h.1]; decide, h.2⟩

/-- C9: SetTimeFormat(F) followed by a GetStatus query for the time format
returns exactly F (and both commands succeed). -/
theorem C9_timeFormat_roundtrip (st : CDAUDIO_STATE) (F fl1 fl2 : Nat)
    (q : MCI_STATUS_PARMS)
    (h1 : fl1 &&& MCI_SET_TIME_FORMAT ≠ 0) (h2 : fl2 &&& MCI_STATUS_ITEM ≠ 0)
    (hq : q.dwItem = MCI_STATUS_TIME_FORMAT) :
    (HandleSet fl1 (some ⟨F⟩) st).2 = 0 ∧
    HandleStatus fl2 (some q) (HandleSet fl1 (some ⟨F⟩) st).1 =
      (0, some { q with dwReturn := F }) := by
  constructor
  · simp [HandleSet, h1]
  · simp [HandleSet, h1, HandleStatus, h2, statusItemValue, hq,
      MCI_STATUS_LENGTH, MCI_STATUS_NUMBER_OF_TRACKS, MCI_STATUS_MODE,
      MCI_STATUS_MEDIA_PRESENT, MCI_STATUS_CURRENT_TRACK,
      MCI_STATUS_POSITION, MCI_STATUS_READY, MCI_STATUS_TIME_FORMAT,
      MCI_CDA_STATUS_TYPE_TRACK]

/-- Witness for C9 at concrete inputs (format 0, milliseconds). -/
theorem C9_timeFormat_roundtrip_witness :
    (HandleSet MCI_SET_TIME_FORMAT (some ⟨0⟩) CDAUDIO_InitState).2 = 0 ∧
    HandleStatus MCI_STATUS_ITEM (some ⟨7, MCI_STATUS_TIME_FORMAT, 9⟩)
      (HandleSet MCI_SET_TIME_FORMAT (some ⟨0⟩) CDAUDIO_InitState).1 =
      (0, some ⟨0, MCI_STATUS_TIME_FORMAT, 9⟩) :=
  C9_timeFormat_roundtrip CDAUDIO_InitState 0 MCI_SET_TIME_FORMAT
    MCI_STATUS_ITEM ⟨7, MCI_STATUS_TIME_FORMAT, 9⟩ (by decide) (by decide) rfl

/-- C8: a command whose code is not MCI_OPEN, targeting a handle that is not
the open emulated device's handle (or arriving when no device is open), is
declined — the dispatcher returns handled = false, writes no result and
leaves the state untouched; an Open command is never declined for this
reason. -/
theorem C8_handle_gate (playSound : Nat → Bool) (fs : Nat → Option Nat)
    (wDevID : Nat) (cmd : MCI_CMD) (st : CDAUDIO_STATE) :
    (msgOf cmd ≠ MCI_OPEN → CDAUDIO_IsEmulatedDevice st wDevID = false →
      CDAUDIO_HandleCommand playSound fs wDevID cmd st = (st, none, false)) ∧
    (∀ dwFlags lp,
      (CDAUDIO_HandleCommand playSound fs wDevID
        (.mciOpen dwFlags lp) st).2.2 = true) := by
  constructor
  · intro h1 h2
    unfold CDAUDIO_HandleCommand
    rw [if_pos ⟨h1, by simp [h2]⟩]
  · intro dwFlags lp
    unfold CDAUDIO_HandleCommand
    rw [if_neg (by simp [msgOf])]

/-- Witness for C8: a Stop aimed at handle 7 while the open device holds
handle 1 is declined; an Open aimed at handle 7 is handled. -/
theorem C8_handle_gate_witness :
    CDAUDIO_HandleCommand psAll fsAB 7 .mciStop stOpenAB =
      (stOpenAB, none, false) ∧
    (CDAUDIO_HandleCommand psAll fsAB 7 (.mciOpen 0 none) stOpenAB).2.2 =
      true :=
  ⟨(C8_handle_gate psAll fsAB 7 .mciStop stOpenAB).1 (by decide) (by decide),
   (C8_handle_gate psAll fsAB 7 .mciStop stOpenAB).2 0 none⟩

/-- C7: the scan estimates an existing track's duration as its byte size
divided by 176 (the source's rough integer form of 176 400 bytes/sec, one
millisecond per 176.4 bytes).  The two middle inequalities pin the estimate
against the documented 176.4 bytes/ms rate: with X = 10*s/1764 the exact
millisecond value, they say X - 1 < L <= X * 441/440.  For a file of exactly
176400 * 60 bytes the recorded estimate is 60136 ms, within 1% of 60 000. -/
theorem C7_length_estimate (fs : Nat → Option Nat) (st : CDAUDIO_STATE)
    (s t : Nat) (h1 : 2 ≤ t) (h2 : t ≤ 99) (hfs : fs t = some s) :
    ((ScanForTracks fs st).tracks t).dwLengthMS = s / 176 ∧
    1760 * (s / 176) ≤ 10 * s ∧
    10 * s < 1764 * (s / 176) + 1764 ∧
    (s = 176400 * 60 →
      (s / 176 = 60136 ∧ 59400 ≤ s / 176 ∧ s / 176 ≤ 60600)) := by
  refine ⟨?_, by omega, by omega, ?_⟩
  · rw [ScanForTracks_tracks fs st h1 h2, hfs]
    rfl
  · intro hs
    subst hs
    norm_num

/-- Witness for C7 at a one-minute track file. -/
theorem C7_length_estimate_witness :
    ((ScanForTracks (fun t => if t = 2 then some (176400 * 60) else none)
        CDAUDIO_InitState).tracks 2).dwLengthMS = 176400 * 60 / 176 ∧
    176400 * 60 / 176 = 60136 := by
  have h := C7_length_estimate
    (fun t => if t = 2 then some (176400 * 60) else none)
    CDAUDIO_InitState (176400 * 60) 2 (by decide) (by decide) (by decide)
  exact ⟨h.1, (h.2.2.2 rfl).1⟩

/-- C6: a GetStatus query for total length (MCI_STATUS_LENGTH without
MCI_TRACK) returns the sum of the per-track estimated lengths over all
tracks marked existing, from track 2 through `dwNumTracks`. -/
theorem C6_total_length (st : CDAUDIO_STATE) (dwFlags : Nat)
    (p : MCI_STATUS_PARMS) (hfl : dwFlags &&& MCI_STATUS_ITEM ≠ 0)
    (htr : dwFlags &&& MCI_TRACK = 0) (hitem : p.dwItem = MCI_STATUS_LENGTH) :
    HandleStatus dwFlags (some p) st =
      (0, some { p with dwReturn := specTotalLength st }) := by
  simp [HandleStatus, hfl, statusItemValue, hitem, htr,
    statusTotalLength_eq_spec]

/-- Witness for C6: over the tracks-2-and-3 fixture the reported total is
the spec sum, concretely 2004 ms. -/
theorem C6_total_length_witness :
    HandleStatus MCI_STATUS_ITEM (some ⟨0, MCI_STATUS_LENGTH, 0⟩) stOpenAB =
      (0, some ⟨specTotalLength stOpenAB, MCI_STATUS_LENGTH, 0⟩) ∧
    specTotalLength stOpenAB = 2004 :=
  ⟨C6_total_length stOpenAB MCI_STATUS_ITEM ⟨0, MCI_STATUS_LENGTH, 0⟩
      (by decide) (by decide) rfl,
   by decide⟩

/-- C3: Open on an already-open device fails with MCIERR_DEVICE_OPEN and
leaves the device state (and the caller's parms) unchanged; Open on a closed
device succeeds with `dwCurrentTrack` = 2 (the first audio track), playback
state Stopped, the time format reset to TMSF and the catalog scanned; and
Close always leaves the device closed (so Open-after-Close succeeds by the
second part). -/
theorem C3_open_lifecycle (fs : Nat → Option Nat) (wDevID dwFlags : Nat)
    (lp : Option MCI_OPEN_PARMSW) (st : CDAUDIO_STATE) :
    (st.bOpen = true →
      HandleOpen fs wDevID dwFlags lp st = (st, MCIERR_DEVICE_OPEN, lp)) ∧
    (st.bOpen = false →
      ((HandleOpen fs wDevID dwFlags lp st).2.1 = 0 ∧
       (HandleOpen fs wDevID dwFlags lp st).1.bOpen = true ∧
       (HandleOpen fs wDevID dwFlags lp st).1.dwCurrentTrack =
         CDAUDIO_FIRST_AUDIO_TRACK ∧
       (HandleOpen fs wDevID dwFlags lp st).1.bPlaying = false ∧
       (HandleOpen fs wDevID dwFlags lp st).1.bPaused = false ∧
       (HandleOpen fs wDevID dwFlags lp st).1.dwTimeFormat =
         MCI_FORMAT_TMSF ∧
       (HandleOpen fs wDevID dwFlags lp st).1.wDevID = wDevID ∧
       (∀ t, 2 ≤ t → t ≤ 99 →
         ((HandleOpen fs wDevID dwFlags lp st).1.tracks t).bExists =
           (fs t).isSome))) ∧
    (HandleClose st).1.bOpen = false ∧ (HandleClose st).2 = 0 := by
  refine ⟨fun h => by simp [HandleOpen, h], fun h => ?_, ?_, rfl⟩
  · have hres : HandleOpen fs wDevID dwFlags lp st =
        (ScanForTracks fs
          { st with
            bOpen := true, wDevID := wDevID, bPlaying := false
            bPaused := false, dwCurrentTrack := CDAUDIO_FIRST_AUDIO_TRACK
            dwTimeFormat := MCI_FORMAT_TMSF }, 0,
         lp.map (fun p => { p with wDeviceID := wDevID })) := by
      simp [HandleOpen, h]
    rw [hres]
    obtain ⟨f1, f2, f3, f4, f5, _, _, f8⟩ := ScanForTracks_frame fs
      { st with
        bOpen := true, wDevID := wDevID, bPlaying := false
        bPaused := false, dwCurrentTrack := CDAUDIO_FIRST_AUDIO_TRACK
        dwTimeFormat := MCI_FORMAT_TMSF }
    exact ⟨rfl, f1, f5, f3, f4, f8, f2,
      fun t h1 h2 => ScanForTracks_bExists fs _ h1 h2⟩
  · show ({ StopPlayback st with bOpen := false, wDevID := 0 }).bOpen = false
    rfl

/-- Witness for C3: opening the fixture device twice fails the second time;
opening from the initial state succeeds with track 2 current; Close closes. -/
theorem C3_open_lifecycle_witness :
    HandleOpen fsAB 1 0 none stOpenAB = (stOpenAB, MCIERR_DEVICE_OPEN, none) ∧
    (HandleOpen fsAB 1 0 none CDAUDIO_InitState).2.1 = 0 ∧
    (HandleOpen fsAB 1 0 none CDAUDIO_InitState).1.dwCurrentTrack = 2 ∧
    (HandleClose stOpenAB).1.bOpen = false :=
  ⟨(C3_open_lifecycle fsAB 1 0 none stOpenAB).1 (by decide),
   ((C3_open_lifecycle fsAB 1 0 none CDAUDIO_InitState).2.1 rfl).1,
   ((C3_open_lifecycle fsAB 1 0 none CDAUDIO_InitState).2.1 rfl).2.2.1,
   (C3_open_lifecycle fsAB 1 0 none stOpenAB).2.2.1⟩

/-- C2: Play without MCI_FROM/MCI_TO defaults the range to
[`dwCurrentTrack`, `dwNumTracks`] and attempts playback of the start track;
and any Play whose requested start track has no catalog entry returns
success (0) while the playback state stays Stopped (given the Paused-only-
from-Playing invariant for the incoming state). -/
theorem C2_play_defaults (playSound : Nat → Bool) (dwFlags : Nat)
    (lp : Option MCI_PLAY_PARMS) (st : CDAUDIO_STATE) :
    (dwFlags &&& MCI_FROM = 0 → dwFlags &&& MCI_TO = 0 →
      ((HandlePlay playSound dwFlags lp st).2 = 0 ∧
       (HandlePlay playSound dwFlags lp st).1.dwStartTrack =
         st.dwCurrentTrack ∧
       (HandlePlay playSound dwFlags lp st).1.dwEndTrack = st.dwNumTracks ∧
       (HandlePlay playSound dwFlags lp st).1.dwCurrentTrack =
         st.dwCurrentTrack ∧
       (HandlePlay playSound dwFlags lp st).1.bPlaying =
         PlayTrackFile playSound st.tracks st.dwCurrentTrack)) ∧
    ((st.tracks
        ((HandlePlay playSound dwFlags lp st).1.dwStartTrack)).bExists =
          false →
      (st.bPaused = true → st.bPlaying = true) →
      ((HandlePlay playSound dwFlags lp st).2 = 0 ∧
       (HandlePlay playSound dwFlags lp st).1.bPlaying = false ∧
       (HandlePlay playSound dwFlags lp st).1.bPaused = false)) := by
  constructor
  · intro hF hT
    obtain ⟨F, T, _, hF0, hT0, h0, hs, he, hc, hbp, _⟩ :=
      HandlePlay_spec playSound dwFlags lp st
    rw [hF0 hF] at hs hc hbp
    rw [hT0 hT] at he
    exact ⟨h0, hs, he, hc, hbp⟩
  · intro hex hinv
    obtain ⟨F, T, _, _, _, h0, hs, _, _, hbp, hps⟩ :=
      HandlePlay_spec playSound dwFlags lp st
    rw [hs] at hex
    have hpf : PlayTrackFile playSound st.tracks F = false := by
      simp [PlayTrackFile, hex]
    refine ⟨h0, by rw [hbp, hpf], ?_⟩
    rw [hps, hpf]
    simp only [Bool.false_eq_true, if_false]
    rw [(StopPlayback_spec st).2.1]
    cases hb : st.bPlaying with
    | true => simp
    | false =>
        simp only [Bool.false_eq_true, if_false]
        cases hq : st.bPaused with
        | true => rw [hinv hq] at hb; cases hb
        | false => rfl

set_option maxRecDepth 10000 in
/-- Witness for C2: a parameterless Play on the one-track fixture plays from
the current track (2) through `dwNumTracks`, and a Play from absent track 5
returns 0 leaving the device stopped. -/
theorem C2_play_defaults_witness :
    (HandlePlay psAll 0 none stOpenOne).1.dwStartTrack =
      stOpenOne.dwCurrentTrack ∧
    (HandlePlay psAll 0 none stOpenOne).1.dwEndTrack =
      stOpenOne.dwNumTracks ∧
    (HandlePlay psAll 0 none stOpenOne).1.bPlaying = true ∧
    (HandlePlay psAll MCI_FROM (some ⟨5, 0⟩) stOpenOne).2 = 0 ∧
    (HandlePlay psAll MCI_FROM (some ⟨5, 0⟩) stOpenOne).1.bPlaying = false := by
  have h1 := (C2_play_defaults psAll 0 none stOpenOne).1 (by decide) (by decide)
  have h2 := (C2_play_defaults psAll MCI_FROM (some ⟨5, 0⟩) stOpenOne).2
    (by decide) (by decide)
  exact ⟨h1.2.1, h1.2.2.1, by rw [h1.2.2.2.2]; decide, h2.1, h2.2.1⟩

/-- Counterexample for C1: with backing files for tracks 2 and 3, the
number-of-tracks query answers 3 (the highest track number), while the count
of tracks marked existing is 2. -/
theorem C1_counterexample :
    (HandleStatus MCI_STATUS_ITEM (some ⟨0, MCI_STATUS_NUMBER_OF_TRACKS, 0⟩)
        stOpenAB).2.map MCI_STATUS_PARMS.dwReturn ≠
      some (existingTrackCount stOpenAB) ∧
    (HandleStatus MCI_STATUS_ITEM (some ⟨0, MCI_STATUS_NUMBER_OF_TRACKS, 0⟩)
        stOpenAB).2.map MCI_STATUS_PARMS.dwReturn = some 3 ∧
    existingTrackCount stOpenAB = 2 := by
  refine ⟨by decide, by decide, by decide⟩

/-- C1 (amended): a number-of-tracks query after a catalog scan returns
`dwNumTracks`, which is the highest track number in 2..99 whose entry is
marked existing (0 when none is), not the count of existing entries. -/
theorem C1_number_of_tracks (fs : Nat → Option Nat) (st : CDAUDIO_STATE)
    (dwFlags : Nat) (p : MCI_STATUS_PARMS)
    (hfl : dwFlags &&& MCI_STATUS_ITEM ≠ 0)
    (hitem : p.dwItem = MCI_STATUS_NUMBER_OF_TRACKS) :
    HandleStatus dwFlags (some p) (ScanForTracks fs st) =
      (0, some { p with dwReturn := (ScanForTracks fs st).dwNumTracks }) ∧
    ((∀ t, 2 ≤ t → t ≤ 99 →
        ((ScanForTracks fs st).tracks t).bExists = false) →
      (ScanForTracks fs st).dwNumTracks = 0) ∧
    ((∃ t, 2 ≤ t ∧ t ≤ 99 ∧
        ((ScanForTracks fs st).tracks t).bExists = true) →
      (2 ≤ (ScanForTracks fs st).dwNumTracks ∧
       (ScanForTracks fs st).dwNumTracks ≤ 99 ∧
       ((ScanForTracks fs st).tracks
           ((ScanForTracks fs st).dwNumTracks)).bExists = true ∧
       ∀ t, 2 ≤ t → t ≤ 99 →
         ((ScanForTracks fs st).tracks t).bExists = true →
         t ≤ (ScanForTracks fs st).dwNumTracks)) := by
  refine ⟨?_, ?_, ?_⟩
  · simp [HandleStatus, hfl, statusItemValue, hitem, MCI_STATUS_LENGTH,
      MCI_STATUS_NUMBER_OF_TRACKS]
  · intro h
    apply (ScanForTracks_num_spec fs st).1
    intro t h1 h2
    have hb := h t h1 h2
    rwa [ScanForTracks_bExists fs st h1 h2] at hb
  · intro ⟨t, h1, h2, h3⟩
    rw [ScanForTracks_bExists fs st h1 h2] at h3
    obtain ⟨c1, c2, c3, c4⟩ := (ScanForTracks_num_spec fs st).2 ⟨t, h1, h2, h3⟩
    refine ⟨c2, c3, ?_, ?_⟩
    · rw [ScanForTracks_bExists fs st c2 c3]
      exact c1
    · intro u hu1 hu2 hu3
      rw [ScanForTracks_bExists fs st hu1 hu2] at hu3
      exact c4 u hu1 hu2 hu3

/-- Witness for C1 (amended) on the two-track fixture: the query reports
`dwNumTracks`, concretely 3. -/
theorem C1_number_of_tracks_witness :
    HandleStatus MCI_STATUS_ITEM (some ⟨0, MCI_STATUS_NUMBER_OF_TRACKS, 0⟩)
      (ScanForTracks fsAB CDAUDIO_InitState) =
      (0, some ⟨(ScanForTracks fsAB CDAUDIO_InitState).dwNumTracks,
        MCI_STATUS_NUMBER_OF_TRACKS, 0⟩) ∧
    (ScanForTracks fsAB CDAUDIO_InitState).dwNumTracks = 3 :=
  ⟨(C1_number_of_tracks fsAB CDAUDIO_InitState MCI_STATUS_ITEM
      ⟨0, MCI_STATUS_NUMBER_OF_TRACKS, 0⟩ (by decide) rfl).1,
   by decide⟩

/-- Every command preserves the invariant that the paused flag implies the
playing flag. -/
lemma HandleCommand_inv (playSound : Nat → Bool) (fs : Nat → Option Nat)
    (wDevID : Nat) (cmd : MCI_CMD) (st : CDAUDIO_STATE)
    (hinv : st.bPaused = true → st.bPlaying = true) :
    (CDAUDIO_HandleCommand playSound fs wDevID cmd st).1.bPaused = true →
    (CDAUDIO_HandleCommand playSound fs wDevID cmd st).1.bPlaying = true := by
  unfold CDAUDIO_HandleCommand
  split
  · exact hinv
  · cases cmd with
    | mciOpen dwFlags lp =>
        show (HandleOpen fs wDevID dwFlags lp st).1.bPaused = true →
          (HandleOpen fs wDevID dwFlags lp st).1.bPlaying = true
        simp only [HandleOpen]
        split
        · exact hinv
        · intro h
          exfalso
          rw [(ScanForTracks_frame fs _).2.2.2.1] at h
          simp at h
    | mciClose =>
        show (HandleClose st).1.bPaused = true →
          (HandleClose st).1.bPlaying = true
        simp only [HandleClose, StopPlayback]
        split
        · intro h; simp at h
        · exact hinv
    | mciPlay dwFlags lp =>
        show (HandlePlay playSound dwFlags lp st).1.bPaused = true →
          (HandlePlay playSound dwFlags lp st).1.bPlaying = true
        obtain ⟨F, T, _, _, _, _, _, _, _, hbp, hps⟩ :=
          HandlePlay_spec playSound dwFlags lp st
        intro h
        rw [hps] at h
        rw [hbp]
        by_cases hc : PlayTrackFile playSound st.tracks F = true
        · rw [if_pos hc] at h; cases h
        · rw [if_neg hc] at h
          rw [(StopPlayback_spec st).2.1] at h
          by_cases hb : st.bPlaying = true
          · rw [if_pos hb] at h; cases h
          · rw [if_neg hb] at h
            exact absurd (hinv h) hb
    | mciStop =>
        show (HandleStop st).1.bPaused = true →
          (HandleStop st).1.bPlaying = true
        intro h
        replace h : (StopPlayback st).bPaused = true := h
        rw [(StopPlayback_spec st).2.1] at h
        by_cases hb : st.bPlaying = true
        · rw [if_pos hb] at h; cases h
        · rw [if_neg hb] at h
          exact absurd (hinv h) hb
    | mciPause =>
        show (HandlePause st).1.bPaused = true →
          (HandlePause st).1.bPlaying = true
        unfold HandlePause
        split
        · next hc => intro _; exact hc.1
        · exact hinv
    | mciResume =>
        show (HandleResume playSound st).1.bPaused = true →
          (HandleResume playSound st).1.bPlaying = true
        unfold HandleResume
        split
        · intro h; simp at h
        · exact hinv
    | mciStatus dwFlags lp => exact hinv
    | mciSet dwFlags lp =>
        show (HandleSet dwFlags lp st).1.bPaused = true →
          (HandleSet dwFlags lp st).1.bPlaying = true
        cases lp with
        | none => exact hinv
        | some p =>
            simp only [HandleSet]
            split <;> exact hinv
    | mciGetDevCaps dwFlags lp => exact hinv
    | mciSeek dwFlags lp =>
        show (HandleSeek dwFlags lp st).1.bPaused = true →
          (HandleSeek dwFlags lp st).1.bPlaying = true
        unfold HandleSeek
        split <;> exact hinv
    | mciInfo => exact hinv
    | other wMsg => exact hinv

/-- The paused flag holds in every reachable state only together with the
playing flag. -/
lemma Reachable_paused_inv :
    ∀ st : CDAUDIO_STATE, Reachable st →
      st.bPaused = true → st.bPlaying = true := by
  intro st h
  induction h with
  | init => intro h0; cases h0
  | step st playSound fs wDevID cmd _ ih =>
      exact HandleCommand_inv playSound fs wDevID cmd st ih

/-- From an unpaused state, the only command that can raise the paused flag
is MCI_PAUSE, and only when the state was Playing. -/
lemma HandleCommand_paused_entry (playSound : Nat → Bool)
    (fs : Nat → Option Nat) (wDevID : Nat) (cmd : MCI_CMD)
    (st : CDAUDIO_STATE) (h0 : st.bPaused = false)
    (h1 : (CDAUDIO_HandleCommand playSound fs wDevID cmd st).1.bPaused =
      true) :
    st.bPlaying = true ∧ msgOf cmd = MCI_PAUSE := by
  unfold CDAUDIO_HandleCommand at h1
  split at h1
  · simp [h0] at h1
  · cases cmd with
    | mciOpen dwFlags lp =>
        replace h1 : (HandleOpen fs wDevID dwFlags lp st).1.bPaused = true :=
          h1
        simp only [HandleOpen] at h1
        split at h1
        · simp [h0] at h1
        · rw [(ScanForTracks_frame fs _).2.2.2.1] at h1
          simp at h1
    | mciClose =>
        replace h1 : (HandleClose st).1.bPaused = true := h1
        simp only [HandleClose, StopPlayback] at h1
        split at h1 <;> simp [h0] at h1
    | mciPlay dwFlags lp =>
        replace h1 : (HandlePlay playSound dwFlags lp st).1.bPaused = true :=
          h1
        obtain ⟨F, T, _, _, _, _, _, _, _, _, hps⟩ :=
          HandlePlay_spec playSound dwFlags lp st
        rw [hps, (StopPlayback_spec st).2.1] at h1
        simp [h0] at h1
    | mciStop =>
        replace h1 : (HandleStop st).1.bPaused = true := h1
        rw [show (HandleStop st).1.bPaused = (StopPlayback st).bPaused
          from rfl, (StopPlayback_spec st).2.1] at h1
        simp [h0] at h1
    | mciPause =>
        replace h1 : (HandlePause st).1.bPaused = true := h1
        unfold HandlePause at h1
        split at h1
        · next hc => exact ⟨hc.1, rfl⟩
        · simp [h0] at h1
    | mciResume =>
        replace h1 : (HandleResume playSound st).1.bPaused = true := h1
        unfold HandleResume at h1
        split at h1 <;> simp [h0] at h1
    | mciStatus dwFlags lp => simp [h0] at h1
    | mciSet dwFlags lp =>
        replace h1 : (HandleSet dwFlags lp st).1.bPaused = true := h1
        cases lp with
        | none => simp [HandleSet, h0] at h1
        | some p =>
            simp only [HandleSet] at h1
            split at h1 <;> simp [h0] at h1
    | mciGetDevCaps dwFlags lp => simp [h0] at h1
    | mciSeek dwFlags lp =>
        replace h1 : (HandleSeek dwFlags lp st).1.bPaused = true := h1
        unfold HandleSeek at h1
        split at h1 <;> simp [h0] at h1
    | mciInfo => simp [h0] at h1
    | other wMsg => simp [h0] at h1

/-- C4: Pause changes the playback flags only from Playing (it is the
identity from Stopped and from Paused); Resume changes them only from Paused
(the identity otherwise); Pause followed by Resume returns a Playing device
to Playing; in every reachable state the paused flag implies the playing
flag; and from an unpaused state the paused flag can only be raised by an
MCI_PAUSE command arriving in the Playing state. -/
theorem C4_pause_resume_invariant :
    (∀ st : CDAUDIO_STATE, st.bPlaying = false ∨ st.bPaused = true →
      HandlePause st = (st, 0)) ∧
    (∀ st : CDAUDIO_STATE, st.bPlaying = true → st.bPaused = false →
      HandlePause st = ({ st with bPaused := true }, 0)) ∧
    (∀ (playSound : Nat → Bool) (st : CDAUDIO_STATE), st.bPaused = false →
      HandleResume playSound st = (st, 0)) ∧
    (∀ (playSound : Nat → Bool) (st : CDAUDIO_STATE), st.bPaused = true →
      HandleResume playSound st = ({ st with bPaused := false }, 0)) ∧
    (∀ (playSound : Nat → Bool) (st : CDAUDIO_STATE),
      st.bPlaying = true → st.bPaused = false →
      ((HandleResume playSound (HandlePause st).1).1.bPlaying = true ∧
       (HandleResume playSound (HandlePause st).1).1.bPaused = false)) ∧
    (∀ st : CDAUDIO_STATE, Reachable st →
      st.bPaused = true → st.bPlaying = true) ∧
    (∀ (playSound : Nat → Bool) (fs : Nat → Option Nat) (wDevID : Nat)
        (cmd : MCI_CMD) (st : CDAUDIO_STATE), st.bPaused = false →
      (CDAUDIO_HandleCommand playSound fs wDevID cmd st).1.bPaused = true →
      (st.bPlaying = true ∧ msgOf cmd = MCI_PAUSE)) := by
  refine ⟨?_, ?_, ?_, ?_, ?_, Reachable_paused_inv,
    HandleCommand_paused_entry⟩
  · intro st h
    unfold HandlePause
    rw [if_neg (by rcases h with h | h <;> simp [h])]
  · intro st h1 h2
    unfold HandlePause
    rw [if_pos ⟨h1, by simp [h2]⟩]
  · intro playSound st h
    unfold HandleResume
    rw [if_neg (by simp [h])]
  · intro playSound st h
    unfold HandleResume
    rw [if_pos h]
  · intro playSound st h1 h2
    have e1 : HandlePause st = ({ st with bPaused := true }, 0) := by
      unfold HandlePause
      rw [if_pos ⟨h1, by simp [h2]⟩]
    have e2 : HandleResume playSound ({ st with bPaused := true } :
        CDAUDIO_STATE) =
        ({ { st with bPaused := true } with bPaused := false }, 0) := by
      unfold HandleResume
      rw [if_pos rfl]
    rw [e1]
    show (HandleResume playSound { st with bPaused := true }).1.bPlaying =
        true ∧
      (HandleResume playSound { st with bPaused := true }).1.bPaused = false
    rw [e2]
    exact ⟨h1, rfl⟩

set_option maxRecDepth 40000 in
/-- Witness for C4: on the one-track fixture, Pause at the stopped device is
the identity; Pause then Resume at the playing device returns to Playing;
and the reachable paused state `stPauseOne` still has the playing flag. -/
theorem C4_pause_resume_invariant_witness :
    HandlePause stOpenOne = (stOpenOne, 0) ∧
    (HandleResume psAll (HandlePause stPlayOne).1).1.bPlaying = true ∧
    (HandleResume psAll (HandlePause stPlayOne).1).1.bPaused = false ∧
    stPauseOne.bPlaying = true ∧
    stPlayOne.bPlaying = true ∧ stPauseOne.bPaused = true := by
  obtain ⟨c1, _, _, _, c5, c6, _⟩ := C4_pause_resume_invariant
  have hreach : Reachable stPauseOne :=
    Reachable.step _ psAll fsOne 1 .mciPause
      (Reachable.step _ psAll fsOne 1 (.mciPlay 0 none)
        (Reachable.step _ psAll fsOne 1 (.mciOpen 0 none) Reachable.init))
  have h5 := c5 psAll stPlayOne (by decide) (by decide)
  exact ⟨c1 stOpenOne (Or.inl (by decide)), h5.1, h5.2,
    c6 stPauseOne hreach (by decide), by decide, by decide⟩

end CdAudio
